import Mathlib

/-!
Verification of the `Dataset` class of `seq2seq/dataset/dataset.py`
(pytorch-seq2seq): vocabulary resolution, pair encoding, batching and
shuffling, as a shallow embedding in Lean 4.

Token sequences are `List String`; encoded sequences are `List Nat`.
Fallible operations return `Except DatasetError _`, with one error
constructor per Python exception kind that the source can raise.
-/

namespace Seq2Seq

/-- The Python exception kinds the `Dataset` code can raise:
`AttributeError` from `_init_vocab` on an unsupported vocabulary argument,
`IndexError` from `zip(*pairs)[0]` on an empty pair list, and
`OverflowError` from `make_batches` when the batch size exceeds the data
size. -/
inductive DatasetError where
  | attributeError
  | indexError
  | overflowError
deriving DecidableEq, Repr

/-- The four reserved special symbols of a vocabulary: padding,
start-of-sequence, end-of-sequence, unknown.  They occupy the lowest
indices and always exist. -/
def reservedTokens : List String := ["<pad>", "<sos>", "<eos>", "<unk>"]

/-- Index of the end-of-sequence symbol. -/
def eosIndex : Nat := 2

/-- Index of the unknown symbol. -/
def unkIndex : Nat := 3

/-- Modelled from the spec: the `Vocabulary` class (spec section 4.1).  Its
source file is not in the repository snapshot; `dataset.py` only imports
it.  A vocabulary holds a maximum size (counting the reserved symbols),
the non-reserved tokens in first-seen order together with their frequency
counts, and a flag recording whether `trim` has run. -/
structure Vocabulary where
  max_size : Nat
  entries : List (String × Nat)
  trimmed : Bool
deriving DecidableEq, Repr

/-- Modelled from the spec: `Vocabulary(max_num_vocab)` creates an empty
vocabulary (reserved symbols pre-registered, no corpus tokens yet). -/
def Vocabulary.create (max_size : Nat) : Vocabulary :=
  { max_size := max_size, entries := [], trimmed := false }

/-- Modelled from the spec: `add_token` increments the count of a seen
token and appends an unseen token with count 1 (no cap enforced at this
stage). -/
def Vocabulary.add_token (v : Vocabulary) (t : String) : Vocabulary :=
  { v with entries :=
      if v.entries.any (fun e => e.1 = t) then
        v.entries.map (fun e => if e.1 = t then (e.1, e.2 + 1) else e)
      else
        v.entries ++ [(t, 1)] }

/-- Modelled from the spec: `add_sequence` calls `add_token` for every
token in order. -/
def Vocabulary.add_sequence (v : Vocabulary) (seq : List String) : Vocabulary :=
  seq.foldl Vocabulary.add_token v

/-- Modelled from the spec: `trim` sorts the non-reserved tokens by
descending frequency (stable, so ties keep first-seen order), keeps the
top `max_size - |reserved|`, and records that it has run (idempotent
short-circuit on re-entry). -/
def Vocabulary.trim (v : Vocabulary) : Vocabulary :=
  if v.trimmed then v
  else
    { v with
      entries := (v.entries.mergeSort (fun a b => decide (b.2 ≤ a.2))).take
        (v.max_size - reservedTokens.length),
      trimmed := true }

/-- The full index space of a vocabulary: reserved symbols first, then the
retained tokens in entry order; a token's index is its position here. -/
def Vocabulary.tokenList (v : Vocabulary) : List String :=
  reservedTokens ++ v.entries.map Prod.fst

/-- Modelled from the spec: `index_for_token` falls back to the unknown
index for an absent token. -/
def Vocabulary.index_for_token (v : Vocabulary) (t : String) : Nat :=
  if v.tokenList.contains t then v.tokenList.indexOf t else unkIndex

/-- Modelled from the spec: `indices_from_sequence` maps each token to its
index (unknown index for absent tokens) and appends the end-of-sequence
index. -/
def Vocabulary.indices_from_sequence (v : Vocabulary) (seq : List String) : List Nat :=
  seq.map v.index_for_token ++ [eosIndex]

/-- The vocabulary argument that `_encode`/`_init_vocab` dispatch on at
runtime: Python `None`, a pre-built `Vocabulary` instance, a `str` path
(carried here as the token list the external `utils.read_vocabulary`
reader yields for it, in rank order), or any other value (`other`). -/
inductive VocabArg where
  | none
  | vocab (v : Vocabulary)
  | path (tokens : List String)
  | other
deriving Repr

/-- The `Dataset` object after `_encode` has populated it: the two length
caps, the two resolved vocabularies, and the encoded corpus `data` of
(source-id-sequence, target-id-sequence) pairs. -/
structure Dataset where
  src_max_len : Nat
  tgt_max_len : Nat
  input_vocab : Vocabulary
  output_vocab : Vocabulary
  data : List (List Nat × List Nat)
deriving Repr

namespace Dataset

/-- `Dataset._init_vocab(sequences, max_num_vocab, vocab)`: dispatch on
the vocabulary argument.  `None`: build a fresh vocabulary from all the
sequences, then `trim()`.  A `Vocabulary` instance: use it as-is.  A path:
add the tokens the external reader yields (it reads up to `max_num_vocab`
tokens) to a fresh vocabulary.  Anything else: `AttributeError`. -/
def _init_vocab (sequences : List (List String)) (max_num_vocab : Nat)
    (vocab : VocabArg) : Except DatasetError Vocabulary :=
  match vocab with
  | .none =>
      .ok ((sequences.foldl Vocabulary.add_sequence
        (Vocabulary.create max_num_vocab)).trim)
  | .vocab v => .ok v
  | .path toks =>
      .ok ((toks.take max_num_vocab).foldl Vocabulary.add_token
        (Vocabulary.create max_num_vocab))
  | .other => .error .attributeError

/-- `Dataset._encode(pairs, src_vocab, tgt_vocab, src_max_vocab,
tgt_max_vocab)`: `zip(*pairs)[0]` raises `IndexError` when `pairs` is
empty; otherwise resolve the input vocabulary from the source sides, then
the output vocabulary from the target sides, then encode every pair in
order through `indices_from_sequence` of the resolved vocabularies. -/
def _encode (src_max_len tgt_max_len : Nat)
    (pairs : List (List String × List String))
    (src_vocab tgt_vocab : VocabArg) (src_max_vocab tgt_max_vocab : Nat) :
    Except DatasetError Dataset :=
  if pairs.isEmpty then .error .indexError
  else do
    let iv ← _init_vocab (pairs.map Prod.fst) src_max_vocab src_vocab
    let ov ← _init_vocab (pairs.map Prod.snd) tgt_max_vocab tgt_vocab
    .ok { src_max_len := src_max_len, tgt_max_len := tgt_max_len,
          input_vocab := iv, output_vocab := ov,
          data := pairs.map (fun p =>
            (iv.indices_from_sequence p.1, ov.indices_from_sequence p.2)) }

/-- `len(dataset)`, i.e. `Dataset.__len__`: the length of `data`. -/
def len (d : Dataset) : Nat := d.data.length

end Dataset

/-- Python's `range(start, stop, step)` as a list, for a non-negative
`step` (`range` with `step = 0` raises in Python; here it yields `[]`,
and no result below depends on that case). -/
def pyRange (start stop step : Nat) : List Nat :=
  if _h : 0 < step ∧ start < stop then
    start :: pyRange (start + step) stop step
  else []
termination_by stop - start
decreasing_by omega

namespace Dataset

/-- `Dataset.num_batches(batch_size) = len(range(0, len(self.data),
batch_size))`. -/
def num_batches (d : Dataset) (batch_size : Nat) : Nat :=
  (pyRange 0 d.data.length batch_size).length

/-- `Dataset.make_batches(batch_size)`: raises `OverflowError` when
`len(self.data) < batch_size`; otherwise for each `i` in `range(0,
len(self.data), batch_size)` yields the batch made of the sources and the
targets of the slice `self.data[i : i + batch_size]`.  The generator is
modelled as the list of all the batches it yields. -/
def make_batches (d : Dataset) (batch_size : Nat) :
    Except DatasetError (List (List (List Nat) × List (List Nat))) :=
  if d.data.length < batch_size then .error .overflowError
  else
    .ok ((pyRange 0 d.data.length batch_size).map (fun i =>
      let cur_batch := (d.data.drop i).take batch_size
      (cur_batch.map Prod.fst, cur_batch.map Prod.snd)))

end Dataset

/-- Modelled from the spec: the state of Python's global `random` module
(an opaque deterministic pseudo-random generator state; the real one is a
Mersenne Twister). -/
structure PyRandom where
  state : Nat
deriving DecidableEq, Repr

/-- Modelled from the spec: `random.seed(k)` resets the global generator
state to a value determined by the integer seed alone. -/
def PyRandom.seed (k : Nat) : PyRandom :=
  ⟨(k * 6364136223846793005 + 1442695040888963407) % 2 ^ 64⟩

/-- One step of a linear congruential generator, standing in for the
Mersenne Twister's next-output function. -/
def PyRandom.next (r : PyRandom) : PyRandom :=
  ⟨(r.state * 1103515245 + 12345) % 2 ^ 31⟩

/-- Modelled from the spec: `random.shuffle(l)` permutes `l` using draws
from the generator state and advances that state.  Modelled as a
Fisher-Yates walk: draw an index, move that element to the front of the
result, recurse on the rest. -/
def PyRandom.shuffle (r : PyRandom) : List α → List α × PyRandom
  | [] => ([], r)
  | x :: xs =>
    let r1 := r.next
    let i := r1.state % (x :: xs).length
    have hi : i < (x :: xs).length := Nat.mod_lt _ (Nat.succ_pos xs.length)
    let res := r1.shuffle ((x :: xs).eraseIdx i)
    ((x :: xs).get ⟨i, hi⟩ :: res.1, res.2)
termination_by l => l.length
decreasing_by
  have h : r.next.state % (xs.length + 1) < xs.length + 1 :=
    Nat.mod_lt _ (Nat.succ_pos xs.length)
  simp only [List.length_eraseIdx, List.length_cons]
  rw [if_pos h]
  omega

/-- `Dataset.shuffle(seed)`: when a seed is given, first `random.seed(seed)`
resets the global generator; then `random.shuffle(self.data)` permutes
`data` in place.  The global `random` state is passed and returned
explicitly. -/
def Dataset.shuffle (d : Dataset) (r : PyRandom) (seed : Option Nat) :
    Dataset × PyRandom :=
  let r1 := match seed with
    | some k => PyRandom.seed k
    | none => r
  let res := r1.shuffle d.data
  ({ d with data := res.1 }, res.2)

/-!  Helper lemmas about `pyRange` and `PyRandom.shuffle`. -/

/-- `range(start, stop, step)` has `⌈(stop - start) / step⌉` elements. -/
theorem pyRange_length (start stop step : Nat) (hstep : 0 < step) :
    (pyRange start stop step).length = (stop - start + step - 1) / step := by
  rw [pyRange]
  split
  · rename_i h
    rw [List.length_cons, pyRange_length (start + step) stop step hstep]
    have h1 : stop - (start + step) = stop - start - step := by omega
    rw [h1]
    rcases le_or_lt step (stop - start) with hle | hlt
    · have e1 : stop - start - step + step - 1 = stop - start - 1 := by omega
      have e2 : stop - start + step - 1 = stop - start - 1 + step := by omega
      rw [e1, e2, Nat.add_div_right _ hstep]
    · have e1 : stop - start - step = 0 := by omega
      have e2 : 0 + step - 1 < step := by omega
      rw [e1, Nat.div_eq_of_lt e2]
      exact (Nat.div_eq_of_lt_le (by omega) (by omega)).symm
  · rename_i h
    have e : stop - start = 0 := by omega
    rw [e, List.length_nil, Nat.div_eq_of_lt (by omega)]
termination_by stop - start
decreasing_by omega

/-- The `k`-th element of `range(start, stop, step)` is `start + k * step`. -/
theorem pyRange_getElem? (start stop step : Nat) (hstep : 0 < step) :
    ∀ k : Nat, start + k * step < stop →
      (pyRange start stop step)[k]? = some (start + k * step)
  | 0, hk => by
      rw [pyRange, dif_pos ⟨hstep, by omega⟩]
      simp
  | k + 1, hk => by
      have hk' : start + step + k * step < stop := by
        rw [Nat.succ_mul] at hk; omega
      rw [pyRange, dif_pos ⟨hstep, by omega⟩, List.getElem?_cons_succ,
        pyRange_getElem? (start + step) stop step hstep k hk']
      congr 1
      rw [Nat.succ_mul]
      omega

/-- Membership bound for the index list of the batching loop. -/
theorem lt_pyRange_length_iff (stop step : Nat) (hstep : 0 < step) (k : Nat) :
    k < (pyRange 0 stop step).length ↔ k * step < stop := by
  rw [pyRange_length 0 stop step hstep, Nat.sub_zero]
  constructor
  · intro h
    have h2 := (Nat.le_div_iff_mul_le hstep).mp h
    rw [Nat.succ_mul] at h2
    omega
  · intro h
    have h2 : (k + 1) * step ≤ stop + step - 1 := by rw [Nat.succ_mul]; omega
    exact (Nat.le_div_iff_mul_le hstep).mpr h2

/-- Removing position `i` and re-consing the removed element is a
permutation of the original list. -/
theorem cons_eraseIdx_perm (l : List α) (i : Nat) (hi : i < l.length) :
    (l[i] :: l.eraseIdx i).Perm l := by
  rw [List.eraseIdx_eq_take_drop_succ]
  refine (List.perm_middle.symm).trans ?_
  rw [← List.drop_eq_getElem_cons hi, List.take_append_drop]

/-- The list `PyRandom.shuffle` returns is a permutation of its input. -/
theorem PyRandom.shuffle_fst_perm (r : PyRandom) (l : List α) :
    ((r.shuffle l).1).Perm l := by
  match l with
  | [] => rw [PyRandom.shuffle]
  | x :: xs =>
    rw [PyRandom.shuffle]
    have hi : r.next.state % (x :: xs).length < (x :: xs).length :=
      Nat.mod_lt _ (Nat.succ_pos xs.length)
    have ih := PyRandom.shuffle_fst_perm r.next
      ((x :: xs).eraseIdx (r.next.state % (x :: xs).length))
    simp only [List.get_eq_getElem]
    exact (ih.cons _).trans (cons_eraseIdx_perm (x :: xs) _ hi)
termination_by l.length
decreasing_by
  have h : r.next.state % (xs.length + 1) < xs.length + 1 :=
    Nat.mod_lt _ (Nat.succ_pos xs.length)
  simp only [List.length_eraseIdx, List.length_cons]
  rw [if_pos h]
  omega

/-- `add_token` never touches the trimmed flag. -/
theorem add_token_trimmed (v : Vocabulary) (t : String) :
    (v.add_token t).trimmed = v.trimmed := rfl

/-- `add_sequence` never touches the trimmed flag. -/
theorem add_sequence_trimmed (seq : List String) :
    ∀ v : Vocabulary, (v.add_sequence seq).trimmed = v.trimmed := by
  induction seq with
  | nil => intro v; rfl
  | cons t ts ih =>
    intro v
    show ((v.add_token t).add_sequence ts).trimmed = v.trimmed
    rw [ih (v.add_token t), add_token_trimmed]

/-- Populating a vocabulary with any number of sequences never touches
the trimmed flag. -/
theorem foldl_add_sequence_trimmed (seqs : List (List String)) :
    ∀ v : Vocabulary,
      (seqs.foldl Vocabulary.add_sequence v).trimmed = v.trimmed := by
  induction seqs with
  | nil => intro v; rfl
  | cons s ss ih =>
    intro v
    show (ss.foldl Vocabulary.add_sequence (v.add_sequence s)).trimmed
      = v.trimmed
    rw [ih (v.add_sequence s), add_sequence_trimmed]

/-- `Except.bind` applied to a success value runs the continuation. -/
theorem except_bind_ok (a : α) (f : α → Except ε β) :
    (Except.ok a : Except ε α).bind f = f a := rfl

/-- `Except.bind` applied to an error propagates it. -/
theorem except_bind_error (e : ε) (f : α → Except ε β) :
    (Except.error e : Except ε α).bind f = Except.error e := rfl

/-- `_encode` on a non-empty pair list, written as the chain of the two
vocabulary resolutions followed by the encoding map. -/
theorem encode_cons (sl tl : Nat) (p : List String × List String)
    (ps : List (List String × List String)) (sv tv : VocabArg) (sm tm : Nat) :
    Dataset._encode sl tl (p :: ps) sv tv sm tm =
      (Dataset._init_vocab ((p :: ps).map Prod.fst) sm sv).bind (fun iv =>
        (Dataset._init_vocab ((p :: ps).map Prod.snd) tm tv).bind (fun ov =>
          Except.ok
            { src_max_len := sl,
              tgt_max_len := tl,
              input_vocab := iv,
              output_vocab := ov,
              data := (p :: ps).map fun q =>
                (iv.indices_from_sequence q.1, ov.indices_from_sequence q.2) })) :=
  rfl

/-!  Concrete data used to instantiate the spec's worked examples. -/

/-- A concrete encoded corpus of ten pairs (the spec's size-10 batching
example). -/
def sampleData10 : List (List Nat × List Nat) :=
  (List.range 10).map (fun i => ([i], [i + 100]))

/-- A concrete dataset holding `sampleData10`. -/
def sampleDataset : Dataset :=
  { src_max_len := 5, tgt_max_len := 5,
    input_vocab := Vocabulary.create 4, output_vocab := Vocabulary.create 4,
    data := sampleData10 }

/-- A concrete pair list and pre-built vocabulary for the encoding
examples. -/
def samplePairs : List (List String × List String) :=
  [(["a"], ["b"]), (["a"], ["c"])]

/-- A concrete pre-built vocabulary. -/
def sampleVocab : Vocabulary :=
  (Vocabulary.create 6).add_sequence ["a", "b", "c"]

/-!  The claims. -/

/-- C2: on a dataset with `n ≥ 1` encoded pairs and a positive batch size
`b`, `num_batches(b)` returns `⌈n / b⌉`, written on naturals as
`(n + b - 1) / b`; the witness instantiates the spec's example
`num_batches(3) = 4` on a corpus of size 10. -/
theorem num_batches_eq_ceil (d : Dataset) (b : Nat) (hb : 0 < b)
    (hn : 1 ≤ d.len) :
    d.num_batches b = (d.len + b - 1) / b := by
  show (pyRange 0 d.data.length b).length = (d.data.length + b - 1) / b
  rw [pyRange_length 0 d.data.length b hb, Nat.sub_zero]

/-- Witness for C2: the corpus of size 10 with batch size 3 yields
`⌈10 / 3⌉ = 4` batches. -/
theorem num_batches_eq_ceil_witness :
    0 < 3 ∧ 1 ≤ sampleDataset.len ∧
      sampleDataset.num_batches 3 = (sampleDataset.len + 3 - 1) / 3 ∧
      (sampleDataset.len + 3 - 1) / 3 = 4 :=
  ⟨by decide, by decide,
   num_batches_eq_ceil sampleDataset 3 (by decide) (by decide), by decide⟩

/-- C3: for a positive batch size, `make_batches` raises the
`OverflowError` condition exactly when the batch size strictly exceeds
the corpus size, and in that case no batch list is produced. -/
theorem make_batches_overflow_iff (d : Dataset) (b : Nat) (hb : 0 < b) :
    (d.make_batches b = .error .overflowError ↔ d.len < b) ∧
    (d.len < b → ∀ bs, d.make_batches b ≠ .ok bs) := by
  have hcore : d.make_batches b = .error .overflowError ↔ d.data.length < b := by
    rw [Dataset.make_batches]
    split
    · rename_i h
      exact ⟨fun _ => h, fun _ => rfl⟩
    · rename_i h
      exact ⟨fun hc => Except.noConfusion hc, fun hlt => absurd hlt h⟩
  refine ⟨hcore, fun hlt bs hok => ?_⟩
  rw [hcore.mpr hlt] at hok
  exact Except.noConfusion hok

/-- Witness for C3: batch size 11 on the corpus of size 10 raises the
overflow condition. -/
theorem make_batches_overflow_iff_witness :
    0 < 11 ∧ sampleDataset.len < 11 ∧
      sampleDataset.make_batches 11 = .error .overflowError :=
  ⟨by decide, by decide,
   ((make_batches_overflow_iff sampleDataset 11 (by decide)).1).mpr (by decide)⟩

/-- The successful branch of `make_batches`: one batch per index of
`range(0, len(data), batch_size)`, each the slice starting there. -/
theorem make_batches_ok (d : Dataset) (b : Nat) (hbn : b ≤ d.data.length) :
    d.make_batches b = .ok ((pyRange 0 d.data.length b).map (fun i =>
      (((d.data.drop i).take b).map Prod.fst,
       ((d.data.drop i).take b).map Prod.snd))) := by
  rw [Dataset.make_batches, if_neg (Nat.not_lt.mpr hbn)]

/-- The `k`-th produced batch is the chunk of `data` starting at `k * b`. -/
theorem make_batches_getD (d : Dataset) (b : Nat) (hb0 : 0 < b) (k : Nat)
    (hk : k * b < d.data.length) :
    ((pyRange 0 d.data.length b).map (fun i =>
      (((d.data.drop i).take b).map Prod.fst,
       ((d.data.drop i).take b).map Prod.snd))).getD k ([], []) =
      (((d.data.drop (k * b)).take b).map Prod.fst,
       ((d.data.drop (k * b)).take b).map Prod.snd) := by
  rw [List.getD_eq_getElem?_getD, List.getElem?_map,
    pyRange_getElem? 0 d.data.length b hb0 k (by omega)]
  simp

/-- C4: with `1 ≤ b ≤ n`, `make_batches(b)` succeeds with exactly
`num_batches(b)` batches; the `k`-th batch is the pair of the sources and
the targets of the chunk `data[k*b : k*b + b]`, elementwise
`sources[j] = data[k*b + j].1` and `targets[j] = data[k*b + j].2`; every
batch but possibly the last has exactly `b` elements; and the batch
sequence is a function of `data` and `b` alone, so a fresh pass over
unchanged data replays the same batches. -/
theorem make_batches_spec (d : Dataset) (b : Nat) (hb : 1 ≤ b)
    (hbn : b ≤ d.len) :
    ∃ bs, d.make_batches b = .ok bs ∧
      bs.length = d.num_batches b ∧
      (∀ k, k < bs.length →
        bs.getD k ([], []) =
          (((d.data.drop (k * b)).take b).map Prod.fst,
           ((d.data.drop (k * b)).take b).map Prod.snd)) ∧
      (∀ k j, k < bs.length → j < b →
        (bs.getD k ([], [])).1[j]? = (d.data[k * b + j]?).map Prod.fst ∧
        (bs.getD k ([], [])).2[j]? = (d.data[k * b + j]?).map Prod.snd) ∧
      (∀ k, k + 1 < bs.length →
        (bs.getD k ([], [])).1.length = b ∧
        (bs.getD k ([], [])).2.length = b) ∧
      (∀ d' : Dataset, d'.data = d.data → d'.make_batches b = d.make_batches b) := by
  refine ⟨_, make_batches_ok d b hbn, ?_, ?_, ?_, ?_, ?_⟩
  · rw [List.length_map, Dataset.num_batches]
  · intro k hk
    rw [List.length_map] at hk
    exact make_batches_getD d b hb k ((lt_pyRange_length_iff _ b hb k).mp hk)
  · intro k j hk hj
    rw [List.length_map] at hk
    have hkb := (lt_pyRange_length_iff _ b hb k).mp hk
    rw [make_batches_getD d b hb k hkb]
    constructor
    · rw [List.getElem?_map, List.getElem?_take, if_pos hj, List.getElem?_drop]
    · rw [List.getElem?_map, List.getElem?_take, if_pos hj, List.getElem?_drop]
  · intro k hk1
    rw [List.length_map] at hk1
    have hkb1 := (lt_pyRange_length_iff _ b hb (k + 1)).mp hk1
    have hkb : k * b < d.data.length := by
      rw [Nat.succ_mul] at hkb1; omega
    rw [make_batches_getD d b hb k hkb]
    have hlen : ((d.data.drop (k * b)).take b).length = b := by
      rw [List.length_take, List.length_drop]
      rw [Nat.succ_mul] at hkb1
      omega
    exact ⟨by rw [List.length_map, hlen], by rw [List.length_map, hlen]⟩
  · intro d' hd'
    rw [Dataset.make_batches, Dataset.make_batches, hd']

/-- Witness for C4: the size-10 corpus with batch size 3. -/
theorem make_batches_spec_witness :
    (1 ≤ 3 ∧ 3 ≤ sampleDataset.len) ∧
    (∃ bs, sampleDataset.make_batches 3 = .ok bs ∧
      bs.length = sampleDataset.num_batches 3 ∧
      (∀ k, k < bs.length →
        bs.getD k ([], []) =
          (((sampleDataset.data.drop (k * 3)).take 3).map Prod.fst,
           ((sampleDataset.data.drop (k * 3)).take 3).map Prod.snd)) ∧
      (∀ k j, k < bs.length → j < 3 →
        (bs.getD k ([], [])).1[j]? = (sampleDataset.data[k * 3 + j]?).map Prod.fst ∧
        (bs.getD k ([], [])).2[j]? = (sampleDataset.data[k * 3 + j]?).map Prod.snd) ∧
      (∀ k, k + 1 < bs.length →
        (bs.getD k ([], [])).1.length = 3 ∧
        (bs.getD k ([], [])).2.length = 3) ∧
      (∀ d' : Dataset, d'.data = sampleDataset.data →
        d'.make_batches 3 = sampleDataset.make_batches 3)) :=
  ⟨⟨by decide, by decide⟩,
   make_batches_spec sampleDataset 3 (by decide) (by decide)⟩

/-- C1: on a non-empty filtered pair list, once both vocabularies are
resolved (to `iv` and `ov`), `_encode` succeeds; the resolved vocabularies
are installed before encoding and the encoding map is expressed with the
final `iv`/`ov` only; `data` holds exactly one encoded pair per input
pair in the original order, with
`data[i] = (iv.indices_from_sequence pairs[i].1,
ov.indices_from_sequence pairs[i].2)`, and `len(dataset)` equals the
number of retained pairs. -/
theorem encode_spec (sl tl : Nat) (pairs : List (List String × List String))
    (hne : pairs ≠ []) (sv tv : VocabArg) (sm tm : Nat) (iv ov : Vocabulary)
    (hiv : Dataset._init_vocab (pairs.map Prod.fst) sm sv = .ok iv)
    (hov : Dataset._init_vocab (pairs.map Prod.snd) tm tv = .ok ov) :
    ∃ ds, Dataset._encode sl tl pairs sv tv sm tm = .ok ds ∧
      ds.input_vocab = iv ∧ ds.output_vocab = ov ∧
      ds.data = pairs.map (fun p =>
        (iv.indices_from_sequence p.1, ov.indices_from_sequence p.2)) ∧
      ds.len = pairs.length ∧
      (∀ i : Nat, ds.data[i]? = (pairs[i]?).map
        (fun p : List String × List String =>
          (iv.indices_from_sequence p.1, ov.indices_from_sequence p.2))) := by
  match pairs, hne with
  | p :: ps, _ =>
    refine
      ⟨{ src_max_len := sl,
         tgt_max_len := tl,
         input_vocab := iv,
         output_vocab := ov,
         data := (p :: ps).map fun q =>
           (iv.indices_from_sequence q.1, ov.indices_from_sequence q.2) },
       ?_, rfl, rfl, rfl, ?_, ?_⟩
    · rw [encode_cons, hiv, except_bind_ok, hov, except_bind_ok]
    · show ((p :: ps).map _).length = (p :: ps).length
      rw [List.length_map]
    · intro i
      show ((p :: ps).map _)[i]? = _
      rw [List.getElem?_map]

/-- Witness for C1: two pairs encoded through a pre-built vocabulary on
both sides. -/
theorem encode_spec_witness :
    samplePairs ≠ [] ∧
    Dataset._init_vocab (samplePairs.map Prod.fst) 6 (.vocab sampleVocab) =
      .ok sampleVocab ∧
    Dataset._init_vocab (samplePairs.map Prod.snd) 6 (.vocab sampleVocab) =
      .ok sampleVocab ∧
    (∃ ds, Dataset._encode 5 5 samplePairs (.vocab sampleVocab)
        (.vocab sampleVocab) 6 6 = .ok ds ∧
      ds.input_vocab = sampleVocab ∧ ds.output_vocab = sampleVocab ∧
      ds.data = samplePairs.map (fun p =>
        (sampleVocab.indices_from_sequence p.1,
         sampleVocab.indices_from_sequence p.2)) ∧
      ds.len = samplePairs.length ∧
      (∀ i : Nat, ds.data[i]? = (samplePairs[i]?).map
        (fun p : List String × List String =>
          (sampleVocab.indices_from_sequence p.1,
           sampleVocab.indices_from_sequence p.2)))) :=
  ⟨by simp [samplePairs], rfl, rfl,
   encode_spec 5 5 samplePairs (by simp [samplePairs]) (.vocab sampleVocab)
     (.vocab sampleVocab) 6 6 sampleVocab sampleVocab rfl rfl⟩

/-- C7: a pre-built `Vocabulary` instance is returned by `_init_vocab`
exactly as given (so it is neither re-trimmed nor extended), the
max-vocab-size argument and the corpus sequences have no effect on that
result, `_encode` installs that exact object as the resolved vocabulary of
the corresponding side, and the whole `_encode` result is unchanged when
only that side's max-vocab-size argument changes. -/
theorem init_vocab_prebuilt (v : Vocabulary) :
    (∀ seqs m, Dataset._init_vocab seqs m (.vocab v) = .ok v) ∧
    (∀ seqs₁ seqs₂ m₁ m₂,
      Dataset._init_vocab seqs₁ m₁ (.vocab v) =
        Dataset._init_vocab seqs₂ m₂ (.vocab v)) ∧
    (∀ sl tl pairs tv sm₁ sm₂ tm,
      Dataset._encode sl tl pairs (.vocab v) tv sm₁ tm =
        Dataset._encode sl tl pairs (.vocab v) tv sm₂ tm) ∧
    (∀ sl tl pairs sv sm tm₁ tm₂,
      Dataset._encode sl tl pairs sv (.vocab v) sm tm₁ =
        Dataset._encode sl tl pairs sv (.vocab v) sm tm₂) ∧
    (∀ sl tl pairs tv sm tm ds,
      Dataset._encode sl tl pairs (.vocab v) tv sm tm = .ok ds →
      ds.input_vocab = v) ∧
    (∀ sl tl pairs sv sm tm ds,
      Dataset._encode sl tl pairs sv (.vocab v) sm tm = .ok ds →
      ds.output_vocab = v) := by
  refine ⟨fun seqs m => rfl, fun seqs₁ seqs₂ m₁ m₂ => rfl, ?_, ?_, ?_, ?_⟩
  · intro sl tl pairs tv sm₁ sm₂ tm
    cases pairs with
    | nil => rfl
    | cons p ps => rfl
  · intro sl tl pairs sv sm tm₁ tm₂
    cases pairs with
    | nil => rfl
    | cons p ps => rfl
  · intro sl tl pairs tv sm tm ds h
    cases pairs with
    | nil => exact absurd h (by simp [Dataset._encode])
    | cons p ps =>
      rw [encode_cons] at h
      rw [show Dataset._init_vocab ((p :: ps).map Prod.fst) sm (.vocab v) =
        .ok v from rfl, except_bind_ok] at h
      rcases htv : Dataset._init_vocab ((p :: ps).map Prod.snd) tm tv with e | ov
      · rw [htv, except_bind_error] at h
        exact Except.noConfusion h
      · rw [htv, except_bind_ok] at h
        cases h
        rfl
  · intro sl tl pairs sv sm tm ds h
    cases pairs with
    | nil => exact absurd h (by simp [Dataset._encode])
    | cons p ps =>
      rw [encode_cons] at h
      rcases hsv : Dataset._init_vocab ((p :: ps).map Prod.fst) sm sv with e | iv
      · rw [hsv, except_bind_error] at h
        exact Except.noConfusion h
      · rw [hsv, except_bind_ok,
          show Dataset._init_vocab ((p :: ps).map Prod.snd) tm (.vocab v) =
            .ok v from rfl, except_bind_ok] at h
        cases h
        rfl

/-- Witness for C7: the pre-built `sampleVocab` is returned as-is, two
different source-side max sizes give the same `_encode` result, and the
dataset encoded with `sampleVocab` on both sides installs that exact
object. -/
theorem init_vocab_prebuilt_witness :
    Dataset._init_vocab [["a"]] 6 (.vocab sampleVocab) = .ok sampleVocab ∧
    Dataset._encode 5 5 samplePairs (.vocab sampleVocab) (.vocab sampleVocab)
        7 6 =
      Dataset._encode 5 5 samplePairs (.vocab sampleVocab) (.vocab sampleVocab)
        8 6 ∧
    ({ src_max_len := 5,
       tgt_max_len := 5,
       input_vocab := sampleVocab,
       output_vocab := sampleVocab,
       data := samplePairs.map fun q =>
         (sampleVocab.indices_from_sequence q.1,
          sampleVocab.indices_from_sequence q.2) } : Dataset).input_vocab
      = sampleVocab :=
  ⟨(init_vocab_prebuilt sampleVocab).1 [["a"]] 6,
   (init_vocab_prebuilt sampleVocab).2.2.1 5 5 samplePairs
     (.vocab sampleVocab) 7 8 6,
   (init_vocab_prebuilt sampleVocab).2.2.2.2.1 5 5 samplePairs
     (.vocab sampleVocab) 6 6 _ rfl⟩

/-- C8: with vocabulary argument `None`, `_init_vocab` returns a fresh
vocabulary created with the given maximum size, populated by
`add_sequence` over every sequence of that side in order, then trimmed by
exactly one `trim()` call: the populated vocabulary is still untrimmed,
the returned one is trimmed, and for pair lists encoded with `None` on
both sides the data is encoded only with the already-trimmed
vocabularies. -/
theorem init_vocab_fresh (seqs : List (List String)) (m : Nat) :
    Dataset._init_vocab seqs m .none =
      .ok ((seqs.foldl Vocabulary.add_sequence (Vocabulary.create m)).trim) ∧
    (Vocabulary.create m).max_size = m ∧
    (seqs.foldl Vocabulary.add_sequence (Vocabulary.create m)).trimmed = false ∧
    ((seqs.foldl Vocabulary.add_sequence (Vocabulary.create m)).trim).trimmed
      = true ∧
    (∀ sl tl (pairs : List (List String × List String)) tm, pairs ≠ [] →
      Dataset._encode sl tl pairs .none .none m tm =
        .ok
          { src_max_len := sl,
            tgt_max_len := tl,
            input_vocab :=
              ((pairs.map Prod.fst).foldl Vocabulary.add_sequence
                (Vocabulary.create m)).trim,
            output_vocab :=
              ((pairs.map Prod.snd).foldl Vocabulary.add_sequence
                (Vocabulary.create tm)).trim,
            data := pairs.map fun p =>
              ((((pairs.map Prod.fst).foldl Vocabulary.add_sequence
                  (Vocabulary.create m)).trim).indices_from_sequence p.1,
               (((pairs.map Prod.snd).foldl Vocabulary.add_sequence
                  (Vocabulary.create tm)).trim).indices_from_sequence p.2) }) := by
  have hcond : (seqs.foldl Vocabulary.add_sequence (Vocabulary.create m)).trimmed
      = false := by
    rw [foldl_add_sequence_trimmed]
    rfl
  refine ⟨rfl, rfl, hcond, ?_, ?_⟩
  · simp [Vocabulary.trim, hcond]
  · intro sl tl pairs tm hne
    match pairs, hne with
    | p :: ps, _ => rfl

/-- Witness for C8: a two-sequence corpus built with `None` vocabulary
arguments. -/
theorem init_vocab_fresh_witness :
    (Dataset._init_vocab [["a"], ["a", "b"]] 6 .none =
      .ok (([["a"], ["a", "b"]].foldl Vocabulary.add_sequence
        (Vocabulary.create 6)).trim)) ∧
    (([(["a"], ["b"])] : List (List String × List String)) ≠ []) ∧
    Dataset._encode 4 4 [(["a"], ["b"])] .none .none 6 7 =
      .ok
        { src_max_len := 4,
          tgt_max_len := 4,
          input_vocab :=
            ((([(["a"], ["b"])] : List (List String × List String)).map
              Prod.fst).foldl Vocabulary.add_sequence
                (Vocabulary.create 6)).trim,
          output_vocab :=
            ((([(["a"], ["b"])] : List (List String × List String)).map
              Prod.snd).foldl Vocabulary.add_sequence
                (Vocabulary.create 7)).trim,
          data := ([(["a"], ["b"])] : List (List String × List String)).map
            fun p =>
              (((([(["a"], ["b"])] : List (List String × List String)).map
                  Prod.fst).foldl Vocabulary.add_sequence
                    (Vocabulary.create 6)).trim.indices_from_sequence p.1,
               ((([(["a"], ["b"])] : List (List String × List String)).map
                  Prod.snd).foldl Vocabulary.add_sequence
                    (Vocabulary.create 7)).trim.indices_from_sequence p.2) } :=
  ⟨(init_vocab_fresh [["a"], ["a", "b"]] 6).1,
   by simp,
   (init_vocab_fresh [] 6).2.2.2.2 4 4 [(["a"], ["b"])] 7 (by simp)⟩

/-- C9: a vocabulary argument that is neither `None`, nor a `Vocabulary`
instance, nor a path fails `_init_vocab` with `AttributeError`, and
`_encode` on a non-empty pair list with such an argument on either side
fails with that same error before producing any dataset; with it on the
source side no dataset is ever produced. -/
theorem init_vocab_other_error :
    (∀ seqs m, Dataset._init_vocab seqs m .other = .error .attributeError) ∧
    (∀ sl tl (pairs : List (List String × List String)) tv sm tm,
      pairs ≠ [] →
      Dataset._encode sl tl pairs .other tv sm tm = .error .attributeError) ∧
    (∀ sl tl (pairs : List (List String × List String)) sv sm tm iv,
      pairs ≠ [] →
      Dataset._init_vocab (pairs.map Prod.fst) sm sv = .ok iv →
      Dataset._encode sl tl pairs sv .other sm tm = .error .attributeError) ∧
    (∀ sl tl (pairs : List (List String × List String)) tv sm tm ds,
      Dataset._encode sl tl pairs .other tv sm tm ≠ .ok ds) := by
  refine ⟨fun seqs m => rfl, ?_, ?_, ?_⟩
  · intro sl tl pairs tv sm tm hne
    match pairs, hne with
    | p :: ps, _ => rfl
  · intro sl tl pairs sv sm tm iv hne hiv
    match pairs, hne with
    | p :: ps, _ =>
      rw [encode_cons, hiv, except_bind_ok]
      rfl
  · intro sl tl pairs tv sm tm ds h
    cases pairs with
    | nil => exact absurd h (by simp [Dataset._encode])
    | cons p ps =>
      rw [show Dataset._encode sl tl (p :: ps) .other tv sm tm =
        .error .attributeError from rfl] at h
      exact Except.noConfusion h

/-- Witness for C9: a one-pair corpus with the unsupported argument on
the source side, then on the target side. -/
theorem init_vocab_other_error_witness :
    (([(["a"], ["b"])] : List (List String × List String)) ≠ []) ∧
    Dataset._encode 4 4 [(["a"], ["b"])] .other .none 6 6 =
      .error .attributeError ∧
    Dataset._encode 4 4 [(["a"], ["b"])] (.vocab sampleVocab) .other 6 6 =
      .error .attributeError :=
  ⟨by simp,
   init_vocab_other_error.2.1 4 4 [(["a"], ["b"])] .none 6 6 (by simp),
   init_vocab_other_error.2.2.1 4 4 [(["a"], ["b"])] (.vocab sampleVocab) 6 6
     sampleVocab (by simp) rfl⟩

/-- C10: on the empty filtered pair list, `_encode` fails with the
`IndexError` of `zip(*pairs)[0]` instead of building an empty dataset, so
no dataset with zero retained pairs is ever constructed. -/
theorem encode_empty_fails :
    (∀ sl tl sv tv sm tm,
      Dataset._encode sl tl [] sv tv sm tm = .error .indexError) ∧
    (∀ sl tl sv tv sm tm ds,
      Dataset._encode sl tl [] sv tv sm tm ≠ .ok ds) := by
  refine ⟨fun sl tl sv tv sm tm => rfl, ?_⟩
  intro sl tl sv tv sm tm ds h
  rw [show Dataset._encode sl tl [] sv tv sm tm = .error .indexError
    from rfl] at h
  exact Except.noConfusion h

/-- C5: `shuffle` with an integer seed is deterministic: two calls on the
same data order produce identical permutations and identical final
generator states, whatever the prior state of the global generator was on
each run. -/
theorem shuffle_seed_deterministic (d₁ d₂ : Dataset) (r₁ r₂ : PyRandom)
    (hdata : d₁.data = d₂.data) (k : Nat) :
    (d₁.shuffle r₁ (some k)).1.data = (d₂.shuffle r₂ (some k)).1.data ∧
    (d₁.shuffle r₁ (some k)).2 = (d₂.shuffle r₂ (some k)).2 := by
  constructor <;> simp [Dataset.shuffle, hdata]

/-- Witness for C5: two `shuffle(seed=42)` calls on the same initial
order but different prior generator states agree. -/
theorem shuffle_seed_deterministic_witness :
    sampleDataset.data = sampleDataset.data ∧
    (sampleDataset.shuffle ⟨0⟩ (some 42)).1.data =
      (sampleDataset.shuffle ⟨999⟩ (some 42)).1.data :=
  ⟨rfl,
   (shuffle_seed_deterministic sampleDataset sampleDataset ⟨0⟩ ⟨999⟩ rfl 42).1⟩

/-- C6: every `shuffle` call, seeded or not, leaves `data` a permutation
of what it was: same length, same multiset of pairs (equal counts), and
each (source, target) pair moves as a single unit, so every pair present
after the shuffle was a pair before it. -/
theorem shuffle_preserves_pairs (d : Dataset) (r : PyRandom)
    (seed : Option Nat) :
    ((d.shuffle r seed).1.data).Perm d.data ∧
    (d.shuffle r seed).1.data.length = d.data.length ∧
    (∀ pr : List Nat × List Nat,
      pr ∈ (d.shuffle r seed).1.data ↔ pr ∈ d.data) ∧
    ((d.shuffle r seed).1.data : Multiset (List Nat × List Nat))
      = (d.data : Multiset (List Nat × List Nat)) := by
  have hp : ((d.shuffle r seed).1.data).Perm d.data :=
    PyRandom.shuffle_fst_perm _ d.data
  exact ⟨hp, hp.length_eq, fun pr => hp.mem_iff, Multiset.coe_eq_coe.mpr hp⟩

end Seq2Seq
